import Mathlib

/-!
# BlockChance front-end grid engine: formal model

Shallow embedding of the adaptive grid rendering / gesture engine of the
BlockChance front end, translated from the TypeScript source:

* `src/pages/GamePage.tsx` — `CanvasGameGrid` (desktop rasterized backend):
  cell pitch, visibility culling, mouse-wheel zoom, click hit-testing,
  zoom buttons, `fitToView`, `resetView`.
* `MobileOptimizedCanvas` — the touch rasterized backend: its pitch,
  buffered culler, touch pinch-zoom handler, `fitToView`, zoom buttons.
* `src/components/GameGrid.tsx` — backend dispatch and the per-cell-markup
  path (`gridBlocks` synthesis, `handleBlockClick`).
* `src/components/MintingInterface.tsx` — `handleBlockSelect` /
  `handleBlockDeselect` (selection-set mutation).
* `public/vrf-worker.js` — `calculateEliminations` / `generateBlockRandomness`.

Pixel coordinates, zoom factors and prices are modelled by `ℚ` (idealizing
IEEE doubles, whose rounding is irrelevant to the claims checked here; the
one place where a genuinely non-finite IEEE value arises — division by a
zero pinch distance — is modelled explicitly at its denotation, see
`pinchMove`).  Cell indices are integers.
-/

namespace BlockChance

/-- Camera state of both rasterized backends: `viewport` in the source
(`GamePage.tsx`, `{ x, y, zoom }`). `x`, `y` are the pan offsets in pixels;
`zoom` is the scale factor. -/
structure Viewport where
  x : ℚ
  y : ℚ
  zoom : ℚ
  deriving DecidableEq, Repr

/-! ## Desktop rasterized backend (`CanvasGameGrid`, GamePage.tsx) -/

/-- `const cellSize = Math.max(2, baseCellSize * viewport.zoom)` with
`baseCellSize = 8` (GamePage.tsx line 1033). -/
def cellSize (zoom : ℚ) : ℚ := max 2 (8 * zoom)

/-- `const gap = Math.max(1, viewport.zoom)` (GamePage.tsx line 1034). -/
def gap (zoom : ℚ) : ℚ := max 1 zoom

/-- Cell pitch of the desktop backend: the per-cell stride `cellSize + gap`
used throughout `drawGrid`, `handleClick` and `handleWheel`. -/
def pitch (zoom : ℚ) : ℚ := cellSize zoom + gap zoom

/-- Continuous (cell-space) column coordinate of the world point under
screen abscissa `sx`: the inverse of `x = viewport.x + col * (cellSize + gap)`
used by `drawGrid` and (floored) by `handleClick`. -/
def worldCol (v : Viewport) (sx : ℚ) : ℚ := (sx - v.x) / pitch v.zoom

/-- Continuous (cell-space) row coordinate of the world point under screen
ordinate `sy`, desktop backend. -/
def worldRow (v : Viewport) (sy : ℚ) : ℚ := (sy - v.y) / pitch v.zoom

/-- Visible cell range (the culler output): integer bounds of the
double loop in `drawGrid`. -/
structure VisRange where
  startCol : ℤ
  endCol : ℤ
  startRow : ℤ
  endRow : ℤ
  deriving DecidableEq, Repr

/-- Visibility culling of `CanvasGameGrid.drawGrid` (GamePage.tsx lines
1066–1069), for a grid of `rows × cols` cells and a canvas of `w × h`
pixels:
`visibleStartX = Math.max(0, Math.floor(-viewport.x / (cellSize + gap)))`,
`visibleEndX   = Math.min(cols, Math.ceil((canvas.width - viewport.x) / (cellSize + gap)) + 1)`,
and symmetrically for rows. -/
def visibleRange (rows cols : ℕ) (v : Viewport) (w h : ℚ) : VisRange where
  startCol := max 0 ⌊(-v.x) / pitch v.zoom⌋
  endCol := min (cols : ℤ) (⌈(w - v.x) / pitch v.zoom⌉ + 1)
  startRow := max 0 ⌊(-v.y) / pitch v.zoom⌋
  endRow := min (rows : ℤ) (⌈(h - v.y) / pitch v.zoom⌉ + 1)

/-- Number of cells enumerated by the culling double loop
`for (row = startY; row < endY; row++) for (col = startX; col < endX; col++)`. -/
def cellCount (r : VisRange) : ℕ :=
  (r.endCol - r.startCol).toNat * (r.endRow - r.startRow).toNat

/-- The per-cell skip test inside the desktop draw loop (GamePage.tsx line
1083): `if (x + cellSize < 0 || y + cellSize < 0 || x > canvas.width || y > canvas.height) continue`,
where `x = viewport.x + col * (cellSize + gap)` and similarly `y`. -/
def drawSkipped (v : Viewport) (w h : ℚ) (row col : ℤ) : Prop :=
  v.x + col * pitch v.zoom + cellSize v.zoom < 0 ∨
  v.y + row * pitch v.zoom + cellSize v.zoom < 0 ∨
  w < v.x + col * pitch v.zoom ∨
  h < v.y + row * pitch v.zoom

/-- `handleWheel` of `CanvasGameGrid` (GamePage.tsx lines 1292–1315):
`newZoom = Math.max(0.1, Math.min(5, viewport.zoom * (1 - e.deltaY * 0.1 * 0.01)))`;
`zoomRatio = newZoom / viewport.zoom`;
`newX = mouseX - (mouseX - viewport.x) * zoomRatio` and symmetrically `newY`. -/
def handleWheel (v : Viewport) (deltaY mouseX mouseY : ℚ) : Viewport :=
  let newZoom := max (1/10) (min 5 (v.zoom * (1 - deltaY * (1/10) * (1/100))))
  let zr := newZoom / v.zoom
  { x := mouseX - (mouseX - v.x) * zr
    y := mouseY - (mouseY - v.y) * zr
    zoom := newZoom }

/-- Desktop zoom-in button (GamePage.tsx line 1404):
`zoom: Math.min(5, prev.zoom * 1.5)`. -/
def zoomInButton (v : Viewport) : Viewport :=
  { v with zoom := min 5 (v.zoom * (3/2)) }

/-- Desktop zoom-out button (GamePage.tsx line 1411):
`zoom: Math.max(0.1, prev.zoom / 1.5)`. -/
def zoomOutButton (v : Viewport) : Viewport :=
  { v with zoom := max (1/10) (v.zoom / (3/2)) }

/-- `resetView` (GamePage.tsx lines 1318–1320): offset `(0,0)`, zoom 1. -/
def resetView : Viewport := { x := 0, y := 0, zoom := 1 }

/-- `fitToView` of `CanvasGameGrid` (GamePage.tsx lines 1322–1340).  Guard:
`if (!canvasSize.width || !canvasSize.height) return` (a falsy, i.e. zero,
canvas dimension leaves the viewport unchanged).  Otherwise
`gridWidth = cols * (baseCellSize + 1)` with `baseCellSize = 8`,
`scale = Math.min(canvasW/gridWidth, canvasH/gridHeight) * 0.9`,
offsets centering the scaled grid; the zoom is set to `scale` unclamped. -/
def fitToView (v : Viewport) (canvasW canvasH : ℚ) (rows cols : ℕ) : Viewport :=
  if canvasW = 0 ∨ canvasH = 0 then v
  else
    let gridWidth := (cols : ℚ) * (8 + 1)
    let gridHeight := (rows : ℚ) * (8 + 1)
    let scale := min (canvasW / gridWidth) (canvasH / gridHeight) * (9/10)
    { x := (canvasW - gridWidth * scale) / 2
      y := (canvasH - gridHeight * scale) / 2
      zoom := scale }

/-! ## Mobile rasterized backend (`MobileOptimizedCanvas`) -/

/-- `const cellSize = Math.max(1, baseCellSize * viewport.zoom)` with
`baseCellSize = 6` (MobileOptimizedCanvas line 37). -/
def mCellSize (zoom : ℚ) : ℚ := max 1 (6 * zoom)

/-- `const gap = Math.max(0.5, viewport.zoom)` (MobileOptimizedCanvas line 38). -/
def mGap (zoom : ℚ) : ℚ := max (1/2) zoom

/-- Cell pitch of the mobile backend. -/
def mPitch (zoom : ℚ) : ℚ := mCellSize zoom + mGap zoom

/-- Continuous column coordinate under screen abscissa `sx`, mobile backend. -/
def mWorldCol (v : Viewport) (sx : ℚ) : ℚ := (sx - v.x) / mPitch v.zoom

/-- Visibility culling of `MobileOptimizedCanvas.drawGrid` (lines 74–78),
with the fixed pixel buffer `const buffer = 20`:
`visibleStartX = Math.max(0, Math.floor((-viewport.x - buffer) / (cellSize + gap)))`,
`visibleEndX   = Math.min(cols, Math.ceil((canvas.width - viewport.x + buffer) / (cellSize + gap)))`,
and symmetrically for rows. -/
def mVisibleRange (rows cols : ℕ) (v : Viewport) (w h : ℚ) : VisRange where
  startCol := max 0 ⌊(-v.x - 20) / mPitch v.zoom⌋
  endCol := min (cols : ℤ) ⌈(w - v.x + 20) / mPitch v.zoom⌉
  startRow := max 0 ⌊(-v.y - 20) / mPitch v.zoom⌋
  endRow := min (rows : ℤ) ⌈(h - v.y + 20) / mPitch v.zoom⌉

/-- Two-finger (pinch) branch of `handleTouchMove` in `MobileOptimizedCanvas`
(lines 197–222), as a function of the previously recorded pinch distance
and the current pinch distance (the source computes
`distance = Math.sqrt((t2x-t1x)^2 + (t2y-t1y)^2)`; the two distances enter
here as the already-computed values, which are always ≥ 0):
`scale = distance / lastDistance`;
`if (Math.abs(scale - 1) > 0.01) zoom = Math.max(0.1, Math.min(3, viewport.zoom * scale))`,
offsets untouched; otherwise no camera change.
JS number semantics when `lastDistance = 0`: `scale` is `NaN` when
`distance = 0` (every `NaN` comparison is false, so the jitter test fails
and the camera is unchanged) and `+Infinity` when `distance ≠ 0` (the
jitter test passes and, for the reachable zooms, which are all positive,
`Math.max(0.1, Math.min(3, zoom * Infinity)) = 3`). -/
def pinchMove (v : Viewport) (lastDistance distance : ℚ) : Viewport :=
  if lastDistance = 0 then
    if distance = 0 then v
    else { v with zoom := 3 }
  else
    let scale := distance / lastDistance
    if 1/100 < |scale - 1| then
      { v with zoom := max (1/10) (min 3 (v.zoom * scale)) }
    else v

/-- The full read-then-update of the pinch branch:
`const lastDistance = parseFloat(canvas.dataset.lastDistance || distance.toString())`
(line 210) — a *missing* recorded distance (first pinch frame) falls back
to the current distance; a recorded distance of zero is the truthy string
`"0"` and is NOT replaced by the fallback. -/
def handleTouchMovePinch (v : Viewport) (stored : Option ℚ) (distance : ℚ) : Viewport :=
  pinchMove v (stored.getD distance) distance

/-- Mobile zoom-in button (MobileOptimizedCanvas line 351):
`zoom: Math.min(2, prev.zoom * 1.4)`. -/
def mZoomInButton (v : Viewport) : Viewport :=
  { v with zoom := min 2 (v.zoom * (7/5)) }

/-- Mobile zoom-out button (MobileOptimizedCanvas line 357):
`zoom: Math.max(0.1, prev.zoom / 1.4)`. -/
def mZoomOutButton (v : Viewport) : Viewport :=
  { v with zoom := max (1/10) (v.zoom / (7/5)) }

/-- `fitToView` of `MobileOptimizedCanvas` (lines 304–316):
`gridWidth = cols * (baseCellSize + 0.5)` with `baseCellSize = 6`,
`scale = Math.min(canvasW/gridWidth, canvasH/gridHeight) * 0.8`,
offsets centering; zoom set to `scale` unclamped. -/
def mFitToView (canvasW canvasH : ℚ) (rows cols : ℕ) : Viewport :=
  let gridWidth := (cols : ℚ) * (6 + 1/2)
  let gridHeight := (rows : ℚ) * (6 + 1/2)
  let scale := min (canvasW / gridWidth) (canvasH / gridHeight) * (4/5)
  { x := (canvasW - gridWidth * scale) / 2
    y := (canvasH - gridHeight * scale) / 2
    zoom := scale }

/-! ## Cell state store, selection, hit-testing -/

/-- Tri-state block lifecycle status (`'unsold' | 'alive' | 'eliminated'`
in the TypeScript `BlockData`). -/
inductive Status where
  | unsold
  | alive
  | eliminated
  deriving DecidableEq, Repr

/-- The fields of a `BlockData` record that this development uses
(`blockId`, `status`, `ownerId?`, `purchasePrice`). -/
structure Block where
  blockId : ℕ
  status : Status
  ownerId : Option String
  purchasePrice : ℚ
  deriving DecidableEq, Repr

/-- Interaction mode of the grid (`'view' | 'select' | 'reveal'`). -/
inductive Mode where
  | view
  | select
  | reveal
  deriving DecidableEq, Repr

/-- The externally observable outcome of one click/tap: which of the
`onBlockSelect` / `onBlockDeselect` callbacks fires (if any). -/
inductive ClickEvent where
  | noEvent
  | selectEv (blockId : ℕ)
  | deselectEv (blockId : ℕ)
  deriving DecidableEq, Repr

/-- Store lookup `blocks.find(b => b.blockId === blockId)` (and equally the
`blockMap.get(blockId)` of the canvas backends, since `blockMap` maps each
`block.blockId` to `block`). -/
def findBlock (blocks : List Block) (blockId : ℕ) : Option Block :=
  blocks.find? (fun b => b.blockId == blockId)

/-- `handleBlockClick` of `GameGrid` (GameGrid.tsx lines 206–217):
no-op outside select mode; looks the id up in the raw `blocks` store;
no-op when absent or not `unsold`; otherwise fires `onBlockDeselect` if the
id is currently selected and `onBlockSelect` otherwise. -/
def handleBlockClick (mode : Mode) (blocks : List Block) (sel : Finset ℕ)
    (blockId : ℕ) : ClickEvent :=
  if mode ≠ Mode.select then .noEvent
  else
    match findBlock blocks blockId with
    | none => .noEvent
    | some b =>
      if b.status ≠ Status.unsold then .noEvent
      else if blockId ∈ sel then .deselectEv blockId
      else .selectEv blockId

/-- Selection-set mutation performed by `MintingInterface` (lines 36–46):
`handleBlockSelect` inserts (`new Set([...prev, blockId])`),
`handleBlockDeselect` deletes. -/
def applyEvent (sel : Finset ℕ) : ClickEvent → Finset ℕ
  | .noEvent => sel
  | .selectEv blockId => insert blockId sel
  | .deselectEv blockId => sel.erase blockId

/-- One complete toggle: the click handler's event applied to the
selection set. -/
def toggleStep (mode : Mode) (blocks : List Block) (sel : Finset ℕ)
    (blockId : ℕ) : Finset ℕ :=
  applyEvent sel (handleBlockClick mode blocks sel blockId)

/-- The synthetic default record for an id absent from the store, as built
by `GameGrid.gridBlocks` (GameGrid.tsx lines 196–203): status `unsold`,
price `game.config.blockPrice`. -/
def defaultBlock (blockId : ℕ) (blockPrice : ℚ) : Block :=
  { blockId := blockId, status := Status.unsold, ownerId := none
    purchasePrice := blockPrice }

/-- `gridBlocks` of `GameGrid` (lines 195–204): one record per id in
`0..totalBlocks`, the store record when present and the synthesized
default otherwise. -/
def gridBlocks (blocks : List Block) (totalBlocks : ℕ) (blockPrice : ℚ) :
    List Block :=
  (List.range totalBlocks).map fun i => (findBlock blocks i).getD (defaultBlock i blockPrice)

/-- The desktop canvas fill-color table (GamePage.tsx lines 1046–1052). -/
structure BlockColors where
  alive : String
  eliminated : String
  unsold : String
  owned : String
  selected : String
  deriving DecidableEq, Repr

/-- `colors` of `CanvasGameGrid`. -/
def colors : BlockColors where
  alive := "#10B981"
  eliminated := "#EF4444"
  unsold := "#E5E7EB"
  owned := "#F59E0B"
  selected := "#3B82F6"

/-- Fill-color selection of the desktop draw loop (GamePage.tsx lines
1088–1093): start from `colors.unsold`; when a record exists, `alive` and
`eliminated` override it. -/
def fillColorOf (b : Option Block) : String :=
  match b with
  | none => colors.unsold
  | some bl =>
    if bl.status = Status.alive then colors.alive
    else if bl.status = Status.eliminated then colors.eliminated
    else colors.unsold

/-- Click hit-testing + toggle of `CanvasGameGrid.handleClick`
(GamePage.tsx lines 1253–1277): no-op unless `mode === 'select'` and not
dragging; inverse transform `col = Math.floor((clickX - viewport.x) / (cellSize + gap))`
(same for rows), bounds check, then
`if (!block || block.status !== 'unsold') return`, else toggle. -/
def handleClick (mode : Mode) (isDragging : Bool) (v : Viewport)
    (blocks : List Block) (sel : Finset ℕ) (rows cols : ℕ)
    (clickX clickY : ℚ) : ClickEvent :=
  if mode ≠ Mode.select ∨ isDragging = true then .noEvent
  else
    let col := ⌊(clickX - v.x) / (cellSize v.zoom + gap v.zoom)⌋
    let row := ⌊(clickY - v.y) / (cellSize v.zoom + gap v.zoom)⌋
    if 0 ≤ row ∧ row < rows ∧ 0 ≤ col ∧ col < cols then
      let blockId := (row * cols + col).toNat
      match findBlock blocks blockId with
      | none => .noEvent
      | some b =>
        if b.status ≠ Status.unsold then .noEvent
        else if blockId ∈ sel then .deselectEv blockId
        else .selectEv blockId
    else .noEvent

/-! ## Render strategy selector (`GameGrid`) -/

/-- The four renderer backends dispatched by `GameGrid`. -/
inductive Backend where
  | perCellMarkup
  | virtualizedMarkup
  | rasterizedDesktop
  | rasterizedTouch
  deriving DecidableEq, Repr

/-- Backend dispatch of `GameGrid` (GameGrid.tsx lines 140–192), a pure
function of the total cell count `rows * cols` and the device class
(`isMobile = window.innerWidth < 768`):
mobile and `totalBlocks > 1000` → `MobileOptimizedCanvas`;
else `totalBlocks > 5000` → `CanvasGameGrid`;
else `totalBlocks > 1000` → `VirtualizedGameGrid`;
else the per-cell markup grid. -/
def selectBackend (totalBlocks : ℕ) (isMobile : Bool) : Backend :=
  if isMobile = true ∧ 1000 < totalBlocks then .rasterizedTouch
  else if 5000 < totalBlocks then .rasterizedDesktop
  else if 1000 < totalBlocks then .virtualizedMarkup
  else .perCellMarkup

/-! ## VRF elimination worker (`public/vrf-worker.js`) -/

/-- Wrap-around to a signed 32-bit integer, the effect of JavaScript
`hash & hash` (ToInt32) in `generateBlockRandomness`. -/
def toInt32 (n : ℤ) : ℤ := (n + 2 ^ 31) % 2 ^ 32 - 2 ^ 31

/-- One step of the string hash loop (vrf-worker.js lines 69–73):
`hash = ((hash << 5) - hash) + char; hash = hash & hash`.  `hash` is
already a 32-bit integer, so `hash << 5` is `toInt32 (hash * 32)`; the
subtraction and addition are exact in doubles at these magnitudes and the
final `& hash` wraps the result back to 32 bits. -/
def hashStep (hash : ℤ) (charCode : ℕ) : ℤ :=
  toInt32 (toInt32 (hash * 32) - hash + charCode)

/-- The hash of `generateBlockRandomness` over a string's UTF-16 code
units (all inputs here are ASCII, where `charCodeAt` agrees with the
character's code point). -/
def hashString (s : String) : ℤ :=
  s.data.foldl (fun h c => hashStep h c.toNat) 0

/-- `generateBlockRandomness(seed, roundNumber, blockId)` (vrf-worker.js
lines 64–77): hash the string `` `${seed}_${roundNumber}_${blockId}` ``
and map it to `[0,1]` by `Math.abs(hash) / 2147483647`. -/
def generateBlockRandomness (seed : String) (roundNumber blockId : ℕ) : ℚ :=
  let combined := seed ++ "_" ++ toString roundNumber ++ "_" ++ toString blockId
  (hashString combined).natAbs / 2147483647

/-- One entry of the `results` list built by `calculateEliminations`. -/
structure ElimResult where
  blockId : ℕ
  eliminated : Bool
  vrfValue : ℚ
  deriving DecidableEq, Repr

/-- `calculateEliminations({seed, roundNumber, blockIds, eliminationRate})`
(vrf-worker.js lines 17–29): for each input block id, in order, push
`{ blockId, eliminated: vrfValue < eliminationRate, vrfValue }` with
`vrfValue = generateBlockRandomness(seed, roundNumber, blockId)`. -/
def calculateEliminations (seed : String) (roundNumber : ℕ)
    (blockIds : List ℕ) (eliminationRate : ℚ) : List ElimResult :=
  blockIds.foldl
    (fun results blockId =>
      let vrfValue := generateBlockRandomness seed roundNumber blockId
      results ++ [{ blockId := blockId
                    eliminated := decide (vrfValue < eliminationRate)
                    vrfValue := vrfValue }])
    []

/-! ## Helper lemmas -/

theorem pitch_pos (z : ℚ) : 0 < pitch z := by
  have h1 : (2:ℚ) ≤ cellSize z := le_max_left _ _
  have h2 : (1:ℚ) ≤ gap z := le_max_left _ _
  unfold pitch
  linarith

theorem mPitch_pos (z : ℚ) : 0 < mPitch z := by
  have h1 : (1:ℚ) ≤ mCellSize z := le_max_left _ _
  have h2 : (1/2:ℚ) ≤ mGap z := le_max_left _ _
  unfold mPitch
  linarith

theorem pitch_of_one_le {z : ℚ} (hz : 1 ≤ z) : pitch z = 9 * z := by
  have h1 : cellSize z = 8 * z := max_eq_right (by linarith)
  have h2 : gap z = z := max_eq_right hz
  unfold pitch
  rw [h1, h2]
  ring

/-! ## Claims -/

/-- **C3** (confirmed).  Render strategy selection: the backend chosen by
`GameGrid` is a pure function of the total cell count and the device class
and matches the specified table — `totalCells ≤ 1000` gives per-cell markup
on both device classes; `1000 < totalCells ≤ 5000` gives virtualized markup
on desktop and the rasterized-touch backend on touch; `totalCells > 5000`
gives rasterized-desktop on desktop and rasterized-touch on touch; in
particular a 200,000-cell grid on a touch device gets the rasterized-touch
backend. -/
theorem strategy_selection_matches_table (n : ℕ) :
    (n ≤ 1000 → ∀ isMobile, selectBackend n isMobile = Backend.perCellMarkup) ∧
    (1000 < n → n ≤ 5000 →
      selectBackend n false = Backend.virtualizedMarkup ∧
      selectBackend n true = Backend.rasterizedTouch) ∧
    (5000 < n →
      selectBackend n false = Backend.rasterizedDesktop ∧
      selectBackend n true = Backend.rasterizedTouch) ∧
    selectBackend 200000 true = Backend.rasterizedTouch := by
  refine ⟨fun h isMobile => ?_, fun h1 h2 => ⟨?_, ?_⟩, fun h => ⟨?_, ?_⟩, by decide⟩
  · have h10 : ¬ 1000 < n := by omega
    have h5 : ¬ 5000 < n := by omega
    simp [selectBackend, h10, h5]
  · have h5 : ¬ 5000 < n := by omega
    simp [selectBackend, h5, h1]
  · simp [selectBackend, h1]
  · have h10 : 1000 < n := by omega
    simp [selectBackend, h, h10]
  · have h10 : 1000 < n := by omega
    simp [selectBackend, h10]

/-- Witness for C3: at 200,000 cells on a touch device the dispatch picks
the rasterized-touch backend, and on desktop the rasterized-desktop one. -/
theorem strategy_selection_matches_table_witness :
    selectBackend 200000 true = Backend.rasterizedTouch ∧
    selectBackend 200000 false = Backend.rasterizedDesktop :=
  ⟨(strategy_selection_matches_table 200000).2.2.2,
   ((strategy_selection_matches_table 200000).2.2.1 (by norm_num)).1⟩

/-- **C7** (confirmed).  Selection toggle invariants, from
`GameGrid.handleBlockClick` and the `MintingInterface` callbacks: in select
mode, a toggle on a cell whose store record is not `unsold` fires no
callback and leaves the selection set unchanged; a toggle on an `unsold`
cell fires `onBlockSelect` when the cell is unselected and
`onBlockDeselect` when it is selected, and two successive toggles return
the selection set to exactly its original contents. -/
theorem selection_toggle_invariants (blocks : List Block) (sel : Finset ℕ)
    (blockId : ℕ) (b : Block) (hfind : findBlock blocks blockId = some b) :
    (b.status ≠ Status.unsold →
      handleBlockClick Mode.select blocks sel blockId = ClickEvent.noEvent ∧
      toggleStep Mode.select blocks sel blockId = sel) ∧
    (b.status = Status.unsold →
      (blockId ∉ sel →
        handleBlockClick Mode.select blocks sel blockId = ClickEvent.selectEv blockId ∧
        handleBlockClick Mode.select blocks
          (toggleStep Mode.select blocks sel blockId) blockId = ClickEvent.deselectEv blockId) ∧
      (blockId ∈ sel →
        handleBlockClick Mode.select blocks sel blockId = ClickEvent.deselectEv blockId ∧
        handleBlockClick Mode.select blocks
          (toggleStep Mode.select blocks sel blockId) blockId = ClickEvent.selectEv blockId) ∧
      toggleStep Mode.select blocks
        (toggleStep Mode.select blocks sel blockId) blockId = sel) := by
  constructor
  · intro hst
    have hclick : handleBlockClick Mode.select blocks sel blockId = ClickEvent.noEvent := by
      simp [handleBlockClick, hfind, hst]
    exact ⟨hclick, by simp [toggleStep, hclick, applyEvent]⟩
  · intro hst
    by_cases hmem : blockId ∈ sel
    · have h1 : handleBlockClick Mode.select blocks sel blockId =
          ClickEvent.deselectEv blockId := by
        simp [handleBlockClick, hfind, hst, hmem]
      have hstep1 : toggleStep Mode.select blocks sel blockId = sel.erase blockId := by
        simp [toggleStep, h1, applyEvent]
      have h2 : handleBlockClick Mode.select blocks (sel.erase blockId) blockId =
          ClickEvent.selectEv blockId := by
        simp [handleBlockClick, hfind, hst]
      refine ⟨fun hn => absurd hmem hn, fun _ => ⟨h1, by rw [hstep1]; exact h2⟩, ?_⟩
      rw [hstep1]
      simp [toggleStep, h2, applyEvent, Finset.insert_erase hmem]
    · have h1 : handleBlockClick Mode.select blocks sel blockId =
          ClickEvent.selectEv blockId := by
        simp [handleBlockClick, hfind, hst, hmem]
      have hstep1 : toggleStep Mode.select blocks sel blockId = insert blockId sel := by
        simp [toggleStep, h1, applyEvent]
      have h2 : handleBlockClick Mode.select blocks (insert blockId sel) blockId =
          ClickEvent.deselectEv blockId := by
        simp [handleBlockClick, hfind, hst]
      refine ⟨fun _ => ⟨h1, by rw [hstep1]; exact h2⟩, fun hm => absurd hm hmem, ?_⟩
      rw [hstep1]
      simp [toggleStep, h2, applyEvent, Finset.erase_insert hmem]

/-- Witness for C7 at a concrete store: block 0 is `alive` (toggle is a
no-op), block 1 is `unsold` (double toggle restores the empty selection). -/
theorem selection_toggle_invariants_witness :
    (toggleStep Mode.select
      [{ blockId := 0, status := Status.alive, ownerId := none, purchasePrice := 1 },
       { blockId := 1, status := Status.unsold, ownerId := none, purchasePrice := 1 }]
      ∅ 0 = ∅) ∧
    (toggleStep Mode.select
      [{ blockId := 0, status := Status.alive, ownerId := none, purchasePrice := 1 },
       { blockId := 1, status := Status.unsold, ownerId := none, purchasePrice := 1 }]
      (toggleStep Mode.select
        [{ blockId := 0, status := Status.alive, ownerId := none, purchasePrice := 1 },
         { blockId := 1, status := Status.unsold, ownerId := none, purchasePrice := 1 }]
        ∅ 1) 1 = ∅) := by
  constructor
  · exact ((selection_toggle_invariants _ ∅ 0
      { blockId := 0, status := Status.alive, ownerId := none, purchasePrice := 1 }
      (by simp [findBlock])).1 (by simp)).2
  · exact ((selection_toggle_invariants _ ∅ 1
      { blockId := 1, status := Status.unsold, ownerId := none, purchasePrice := 1 }
      (by simp [findBlock])).2 rfl).2.2

/-- **C1** counterexample.  The claimed wheel-zoom anchoring fails on a
reachable camera state: at zoom `0.5` (offset `(0,0)`), a wheel event with
`deltaY = -1000` (zoom factor `2`, one of the factors the claim names)
moves the world column under the cursor `x = 70` from `14` to `140/9` —
an error of `14/9` of a cell, far beyond floating-point epsilon.  The
offset update scales by `newZoom/zoom = 2`, but the pitch only grows from
`max(2,8·0.5)+max(1,0.5) = 5` to `9` (ratio `1.8`), because the `max`
floors are active at zoom `0.5`. -/
theorem wheel_zoom_anchoring_cex :
    worldCol (handleWheel ⟨0, 0, 1/2⟩ (-1000) 70 0) 70 -
      worldCol ⟨0, 0, 1/2⟩ 70 > 1 ∧
    worldCol (handleWheel ⟨0, 0, 1/2⟩ (-1000) 70 0) 70 ≠
      worldCol ⟨0, 0, 1/2⟩ 70 := by
  norm_num [worldCol, handleWheel, pitch, cellSize, gap]

/-- **C1** (corrected).  Wheel-zoom anchoring holds exactly in the regime
where the pitch is proportional to the zoom, i.e. whenever both the old
zoom and the new zoom are at least `1` (so `cellSize = 8·zoom` and
`gap = zoom` are unclamped): the world (cell-space) point under the cursor
before the zoom is under the same screen point after it, exactly (hence
within any epsilon).  Moreover a factor-`1` wheel event (`deltaY = 0`)
leaves every in-bounds camera unchanged.  Outside that regime the claim
fails (see the counterexample). -/
theorem wheel_zoom_anchoring :
    (∀ (v : Viewport) (deltaY mouseX mouseY : ℚ), 1 ≤ v.zoom →
      1 ≤ (handleWheel v deltaY mouseX mouseY).zoom →
      worldCol (handleWheel v deltaY mouseX mouseY) mouseX = worldCol v mouseX ∧
      worldRow (handleWheel v deltaY mouseX mouseY) mouseY = worldRow v mouseY) ∧
    (∀ (v : Viewport) (mouseX mouseY : ℚ), 1/10 ≤ v.zoom → v.zoom ≤ 5 →
      handleWheel v 0 mouseX mouseY = v) := by
  constructor
  · intro v deltaY mouseX mouseY hz hz'
    have hzne : v.zoom ≠ 0 := by linarith
    have hz'ne : (handleWheel v deltaY mouseX mouseY).zoom ≠ 0 := by linarith
    have hpz := pitch_of_one_le hz
    have hpz' := pitch_of_one_le hz'
    constructor
    · rw [worldCol, worldCol, hpz']
      rw [show (handleWheel v deltaY mouseX mouseY).x =
          mouseX - (mouseX - v.x) *
            ((handleWheel v deltaY mouseX mouseY).zoom / v.zoom) from rfl]
      rw [hpz]
      field_simp
      ring
    · rw [worldRow, worldRow, hpz']
      rw [show (handleWheel v deltaY mouseX mouseY).y =
          mouseY - (mouseY - v.y) *
            ((handleWheel v deltaY mouseX mouseY).zoom / v.zoom) from rfl]
      rw [hpz]
      field_simp
      ring
  · intro v mouseX mouseY h1 h5
    have hzne : v.zoom ≠ 0 := by linarith
    have hzoom : max (1/10 : ℚ) (min 5 (v.zoom * (1 - 0 * (1/10) * (1/100)))) = v.zoom := by
      rw [show v.zoom * (1 - 0 * (1/10 : ℚ) * (1/100)) = v.zoom by ring]
      rw [min_eq_right h5, max_eq_right h1]
    obtain ⟨x, y, z⟩ := v
    simp only [handleWheel] at *
    rw [hzoom, div_self hzne]
    simp

/-- Witness for C1 (amended): zoom `1 → 2` (factor `2`, `deltaY = -1000`)
at cursor `(70, 30)` with offset `(10, 5)` keeps the world point under the
cursor fixed. -/
theorem wheel_zoom_anchoring_witness :
    worldCol (handleWheel ⟨10, 5, 1⟩ (-1000) 70 30) 70 = worldCol ⟨10, 5, 1⟩ 70 ∧
    worldRow (handleWheel ⟨10, 5, 1⟩ (-1000) 70 30) 30 = worldRow ⟨10, 5, 1⟩ 30 :=
  wheel_zoom_anchoring.1 ⟨10, 5, 1⟩ (-1000) 70 30 (by norm_num)
    (by norm_num [handleWheel])

/-- Column/row span of a culler whose loop bounds have the shape shared by
both rasterized backends (`a = -offset`, pixel buffer `b`, end summand
`k`): the span is at most `⌈(w + 2b)/p⌉ + 1 + k` cells, independently of
the grid dimension `c`. -/
theorem cull_span_le (p a w b : ℚ) (k c : ℤ) (hp : 0 < p) :
    min c (⌈(w + a + b) / p⌉ + k) - max 0 ⌊(a - b) / p⌋ ≤
      ⌈(w + 2 * b) / p⌉ + 1 + k := by
  rcases le_or_lt ⌊(a - b) / p⌋ 0 with hfl | hfl
  · rw [max_eq_left hfl]
    have hab : (a - b) / p < 1 := by
      have := Int.lt_floor_add_one ((a - b) / p)
      have : ((a - b) / p : ℚ) < (⌊(a - b) / p⌋ : ℚ) + 1 := this
      have hcast : ((⌊(a - b) / p⌋ : ℤ) : ℚ) ≤ 0 := by exact_mod_cast hfl
      linarith
    have habp : a - b < p := by
      have := (div_lt_one hp).mp hab
      linarith
    have hle : (w + a + b) / p ≤ (w + 2 * b) / p + 1 := by
      have h' : w + a + b ≤ w + 2 * b + p := by linarith
      calc (w + a + b) / p ≤ (w + 2 * b + p) / p :=
            (div_le_div_iff_of_pos_right hp).mpr h'
        _ = (w + 2 * b) / p + 1 := by field_simp
    have := Int.ceil_le_ceil hle
    rw [Int.ceil_add_one] at this
    have hmin : min c (⌈(w + a + b) / p⌉ + k) ≤ ⌈(w + a + b) / p⌉ + k :=
      min_le_right _ _
    omega
  · rw [max_eq_right hfl.le]
    have h1 : (⌈(w + a + b) / p⌉ : ℚ) < (w + a + b) / p + 1 :=
      Int.ceil_lt_add_one _
    have h2 : ((a - b) / p : ℚ) - 1 < (⌊(a - b) / p⌋ : ℚ) :=
      Int.sub_one_lt_floor _
    have hq : ((min c (⌈(w + a + b) / p⌉ + k) - max 0 ⌊(a - b) / p⌋ : ℤ) : ℚ) <
        (w + 2 * b) / p + (2 + k) := by
      rw [max_eq_right hfl.le]
      push_cast
      have hmin : ((min c (⌈(w + a + b) / p⌉ + k) : ℤ) : ℚ) ≤
          (⌈(w + a + b) / p⌉ : ℚ) + k := by
        have : min c (⌈(w + a + b) / p⌉ + k) ≤ ⌈(w + a + b) / p⌉ + k :=
          min_le_right _ _
        exact_mod_cast this
      have harith : (w + a + b) / p - (a - b) / p = (w + 2 * b) / p := by
        field_simp
        ring
      push_cast at hmin
      linarith
    have := Int.lt_ceil.mpr hq
    have hceil : ⌈(w + 2 * b) / p + (2 + (k : ℚ))⌉ = ⌈(w + 2 * b) / p⌉ + (2 + k) := by
      rw [show (2 + (k : ℚ)) = ((2 + k : ℤ) : ℚ) by push_cast; ring, Int.ceil_add_int]
    rw [hceil] at this
    omega

/-- **C2** counterexample.  The claimed culling bound
`ceil(W/p + 2·bufferCells) * ceil(H/p + 2·bufferCells)` fails for the
desktop culler (whose pixel buffer is `0`, but whose loop end adds one
extra column/row and whose floor at the start adds another): on a 100×100
grid with a 10×10 viewport at zoom 1 (pitch 9) and offset `(-4.5, -4.5)`,
the loop enumerates `3 × 3 = 9` cells while the claimed bound is
`⌈10/9⌉² = 4`. -/
theorem culling_bound_cex :
    ¬ cellCount (visibleRange 100 100 ⟨-9/2, -9/2, 1⟩ 10 10) ≤
      (⌈(10 : ℚ) / pitch 1 + 2 * 0⌉).toNat *
      (⌈(10 : ℚ) / pitch 1 + 2 * 0⌉).toNat := by
  have hp : pitch 1 = 9 := by norm_num [pitch, cellSize, gap]
  have hc : ⌈(29 : ℚ) / 18⌉ = 2 := by
    rw [Int.ceil_eq_iff]
    norm_num
  have hb : ⌈(10 : ℚ) / 9⌉ = 2 := by
    rw [Int.ceil_eq_iff]
    norm_num
  norm_num [cellCount, visibleRange, hp, hc, hb]
  decide

/-- **C2** (corrected).  Culling bound with the slack the code actually
has: for every grid of `rows × cols` cells, every viewport of `w × h`
pixels and every camera, the number of cells enumerated by the rasterized
renderers' culling loop is at most
`(⌈w/p + 2·bufferCells⌉ + 2) * (⌈h/p + 2·bufferCells⌉ + 2)`, where
`bufferCells = buffer/p` is the pixel buffer in cells (`buffer = 0` for
the desktop culler, whose `+1` end summand and start floor supply the
slack; `buffer = 20` for the mobile culler, written below as
`(w + 2*20)/p = w/p + 2·(20/p)`).  The bound is independent of
`rows * cols` — the claimed core performance property survives with the
`+2` slack. -/
theorem culling_bound (rows cols : ℕ) (v : Viewport) (w h : ℚ) :
    cellCount (visibleRange rows cols v w h) ≤
      (⌈w / pitch v.zoom + 2 * 0⌉ + 2).toNat *
      (⌈h / pitch v.zoom + 2 * 0⌉ + 2).toNat ∧
    cellCount (mVisibleRange rows cols v w h) ≤
      (⌈(w + 2 * 20) / mPitch v.zoom⌉ + 2).toNat *
      (⌈(h + 2 * 20) / mPitch v.zoom⌉ + 2).toNat := by
  constructor
  · apply Nat.mul_le_mul
    · apply Int.toNat_le_toNat
      have hd := cull_span_le (pitch v.zoom) (-v.x) w 0 1 cols (pitch_pos v.zoom)
      simp only [sub_zero, add_zero, mul_zero] at hd
      rw [← sub_eq_add_neg] at hd
      simp only [visibleRange]
      rw [show w / pitch v.zoom + 2 * 0 = w / pitch v.zoom by ring]
      linarith [hd]
    · apply Int.toNat_le_toNat
      have hd := cull_span_le (pitch v.zoom) (-v.y) h 0 1 rows (pitch_pos v.zoom)
      simp only [sub_zero, add_zero, mul_zero] at hd
      rw [← sub_eq_add_neg] at hd
      simp only [visibleRange]
      rw [show h / pitch v.zoom + 2 * 0 = h / pitch v.zoom by ring]
      linarith [hd]
  · apply Nat.mul_le_mul
    · apply Int.toNat_le_toNat
      have hd := cull_span_le (mPitch v.zoom) (-v.x) w 20 0 cols (mPitch_pos v.zoom)
      simp only [add_zero] at hd
      rw [show w + -v.x + 20 = w - v.x + 20 by ring] at hd
      simp only [mVisibleRange]
      rw [show (-v.x - 20 : ℚ) = -v.x - 20 from rfl]
      linarith [hd]
    · apply Int.toNat_le_toNat
      have hd := cull_span_le (mPitch v.zoom) (-v.y) h 20 0 rows (mPitch_pos v.zoom)
      simp only [add_zero] at hd
      rw [show h + -v.y + 20 = h - v.y + 20 by ring] at hd
      simp only [mVisibleRange]
      linarith [hd]

theorem cellCount_eq_zero_col {r : VisRange} (hc : r.endCol ≤ r.startCol) :
    cellCount r = 0 := by
  unfold cellCount
  rw [Int.toNat_eq_zero.mpr (by omega), Nat.zero_mul]

theorem cellCount_eq_zero_row {r : VisRange} (hr : r.endRow ≤ r.startRow) :
    cellCount r = 0 := by
  unfold cellCount
  rw [Int.toNat_eq_zero.mpr (by omega : r.endRow - r.startRow ≤ 0), Nat.mul_zero]

/-- **C4** counterexample.  With the grid panned fully off-screen to the
*right* (offset `x = 12` on a 10-pixel-wide viewport at zoom 1, so every
cell of the 10×10 grid sits at screen `x ≥ 12 > 10` and is skipped by the
draw loop's screen test), the desktop culler still enumerates a non-empty
range: its `endCol = ceil((w - x)/p) + 1 = 1 > 0 = startCol`, so
`1 × 3 = 3` cells are enumerated, refuting "when the grid is fully
off-screen the enumerated range is empty". -/
theorem bounds_containment_cex :
    cellCount (visibleRange 10 10 ⟨12, 0, 1⟩ 10 10) = 3 ∧
    drawSkipped ⟨12, 0, 1⟩ 10 10 0 0 ∧
    drawSkipped ⟨12, 0, 1⟩ 10 10 1 0 ∧
    drawSkipped ⟨12, 0, 1⟩ 10 10 2 0 := by
  have hp : pitch 1 = 9 := by norm_num [pitch, cellSize, gap]
  refine ⟨?_, ?_, ?_, ?_⟩
  · have hc1 : ⌈-((2 : ℚ) / 9)⌉ = 0 := by
      rw [Int.ceil_eq_iff]
      norm_num
    have hc2 : ⌈(10 : ℚ) / 9⌉ = 2 := by
      rw [Int.ceil_eq_iff]
      norm_num
    norm_num [cellCount, visibleRange, hp, hc1, hc2]
    decide
  · unfold drawSkipped
    rw [hp]
    right; right; left
    norm_num
  · unfold drawSkipped
    rw [hp]
    right; right; left
    norm_num
  · unfold drawSkipped
    rw [hp]
    right; right; left
    norm_num

/-- **C4** (corrected).  Bounds containment itself holds unconditionally
for both cullers: `0 ≤ startCol`, `endCol ≤ cols`, `0 ≤ startRow`,
`endRow ≤ rows`, hence every enumerated cell lies in
`[0,rows) × [0,cols)` (and the total functions raise no error).  The
claimed emptiness for fully off-screen grids holds when the grid is panned
off to the left/up (beyond its own extent) or right/down by at least one
pitch (mobile: beyond the 20px buffer) past the viewport edge; but in the
remaining desktop band (`w ≤ x < w + p`) the range is *not* empty (see the
counterexample) — there every cell with a non-negative column is skipped by
the draw loop's per-cell screen test instead. -/
theorem bounds_containment (rows cols : ℕ) (v : Viewport) (w h : ℚ) :
    (0 ≤ (visibleRange rows cols v w h).startCol ∧
     (visibleRange rows cols v w h).endCol ≤ cols ∧
     0 ≤ (visibleRange rows cols v w h).startRow ∧
     (visibleRange rows cols v w h).endRow ≤ rows) ∧
    (0 ≤ (mVisibleRange rows cols v w h).startCol ∧
     (mVisibleRange rows cols v w h).endCol ≤ cols ∧
     0 ≤ (mVisibleRange rows cols v w h).startRow ∧
     (mVisibleRange rows cols v w h).endRow ≤ rows) ∧
    (∀ row col : ℤ,
      (visibleRange rows cols v w h).startRow ≤ row →
      row < (visibleRange rows cols v w h).endRow →
      (visibleRange rows cols v w h).startCol ≤ col →
      col < (visibleRange rows cols v w h).endCol →
      0 ≤ row ∧ row < rows ∧ 0 ≤ col ∧ col < cols) ∧
    (∀ row col : ℤ,
      (mVisibleRange rows cols v w h).startRow ≤ row →
      row < (mVisibleRange rows cols v w h).endRow →
      (mVisibleRange rows cols v w h).startCol ≤ col →
      col < (mVisibleRange rows cols v w h).endCol →
      0 ≤ row ∧ row < rows ∧ 0 ≤ col ∧ col < cols) ∧
    ((cols : ℚ) * pitch v.zoom ≤ -v.x →
      cellCount (visibleRange rows cols v w h) = 0) ∧
    ((rows : ℚ) * pitch v.zoom ≤ -v.y →
      cellCount (visibleRange rows cols v w h) = 0) ∧
    (w + pitch v.zoom ≤ v.x →
      cellCount (visibleRange rows cols v w h) = 0) ∧
    (h + pitch v.zoom ≤ v.y →
      cellCount (visibleRange rows cols v w h) = 0) ∧
    ((cols : ℚ) * mPitch v.zoom ≤ -v.x - 20 →
      cellCount (mVisibleRange rows cols v w h) = 0) ∧
    ((rows : ℚ) * mPitch v.zoom ≤ -v.y - 20 →
      cellCount (mVisibleRange rows cols v w h) = 0) ∧
    (w + 20 ≤ v.x → cellCount (mVisibleRange rows cols v w h) = 0) ∧
    (h + 20 ≤ v.y → cellCount (mVisibleRange rows cols v w h) = 0) ∧
    (w < v.x → ∀ row col : ℤ, 0 ≤ col → drawSkipped v w h row col) := by
  have hp := pitch_pos v.zoom
  have hmp := mPitch_pos v.zoom
  have hd1 : 0 ≤ (visibleRange rows cols v w h).startCol := le_max_left 0 _
  have hd2 : (visibleRange rows cols v w h).endCol ≤ cols := min_le_left _ _
  have hd3 : 0 ≤ (visibleRange rows cols v w h).startRow := le_max_left 0 _
  have hd4 : (visibleRange rows cols v w h).endRow ≤ rows := min_le_left _ _
  have hm1 : 0 ≤ (mVisibleRange rows cols v w h).startCol := le_max_left 0 _
  have hm2 : (mVisibleRange rows cols v w h).endCol ≤ cols := min_le_left _ _
  have hm3 : 0 ≤ (mVisibleRange rows cols v w h).startRow := le_max_left 0 _
  have hm4 : (mVisibleRange rows cols v w h).endRow ≤ rows := min_le_left _ _
  refine ⟨⟨hd1, hd2, hd3, hd4⟩, ⟨hm1, hm2, hm3, hm4⟩,
    fun row col h1 h2 h3 h4 => ⟨by omega, by omega, by omega, by omega⟩,
    fun row col h1 h2 h3 h4 => ⟨by omega, by omega, by omega, by omega⟩,
    fun hoff => ?_, fun hoff => ?_, fun hoff => ?_, fun hoff => ?_,
    fun hoff => ?_, fun hoff => ?_, fun hoff => ?_, fun hoff => ?_,
    fun hw row col hcol => ?_⟩
  · apply cellCount_eq_zero_col
    have hfl : (cols : ℤ) ≤ ⌊(-v.x) / pitch v.zoom⌋ := by
      apply Int.le_floor.mpr
      rw [le_div_iff₀ hp]
      push_cast
      linarith
    have : (cols : ℤ) ≤ (visibleRange rows cols v w h).startCol :=
      le_trans hfl (le_max_right 0 _)
    omega
  · apply cellCount_eq_zero_row
    have hfl : (rows : ℤ) ≤ ⌊(-v.y) / pitch v.zoom⌋ := by
      apply Int.le_floor.mpr
      rw [le_div_iff₀ hp]
      push_cast
      linarith
    have : (rows : ℤ) ≤ (visibleRange rows cols v w h).startRow :=
      le_trans hfl (le_max_right 0 _)
    omega
  · apply cellCount_eq_zero_col
    have hcl : ⌈(w - v.x) / pitch v.zoom⌉ ≤ -1 := by
      apply Int.ceil_le.mpr
      rw [div_le_iff₀ hp]
      push_cast
      linarith
    have : (visibleRange rows cols v w h).endCol ≤ 0 :=
      le_trans (min_le_right _ _) (by omega)
    omega
  · apply cellCount_eq_zero_row
    have hcl : ⌈(h - v.y) / pitch v.zoom⌉ ≤ -1 := by
      apply Int.ceil_le.mpr
      rw [div_le_iff₀ hp]
      push_cast
      linarith
    have : (visibleRange rows cols v w h).endRow ≤ 0 :=
      le_trans (min_le_right _ _) (by omega)
    omega
  · apply cellCount_eq_zero_col
    have hfl : (cols : ℤ) ≤ ⌊(-v.x - 20) / mPitch v.zoom⌋ := by
      apply Int.le_floor.mpr
      rw [le_div_iff₀ hmp]
      push_cast
      linarith
    have : (cols : ℤ) ≤ (mVisibleRange rows cols v w h).startCol :=
      le_trans hfl (le_max_right 0 _)
    omega
  · apply cellCount_eq_zero_row
    have hfl : (rows : ℤ) ≤ ⌊(-v.y - 20) / mPitch v.zoom⌋ := by
      apply Int.le_floor.mpr
      rw [le_div_iff₀ hmp]
      push_cast
      linarith
    have : (rows : ℤ) ≤ (mVisibleRange rows cols v w h).startRow :=
      le_trans hfl (le_max_right 0 _)
    omega
  · apply cellCount_eq_zero_col
    have hcl : ⌈(w - v.x + 20) / mPitch v.zoom⌉ ≤ 0 := by
      apply Int.ceil_le.mpr
      push_cast
      apply div_nonpos_of_nonpos_of_nonneg (by linarith) hmp.le
    have : (mVisibleRange rows cols v w h).endCol ≤ 0 :=
      le_trans (min_le_right _ _) hcl
    omega
  · apply cellCount_eq_zero_row
    have hcl : ⌈(h - v.y + 20) / mPitch v.zoom⌉ ≤ 0 := by
      apply Int.ceil_le.mpr
      push_cast
      apply div_nonpos_of_nonpos_of_nonneg (by linarith) hmp.le
    have : (mVisibleRange rows cols v w h).endRow ≤ 0 :=
      le_trans (min_le_right _ _) hcl
    omega
  · have hnn : (0 : ℚ) ≤ (col : ℚ) * pitch v.zoom :=
      mul_nonneg (by exact_mod_cast hcol) hp.le
    unfold drawSkipped
    right; right; left
    linarith

/-- Witness for C4 (amended), the spec's own scenario: a 10×10 grid panned
by `(-1000, -1000)` on a 500×500 viewport at zoom 1 is fully off-screen to
the left/up and the desktop culler enumerates zero cells. -/
theorem bounds_containment_witness :
    cellCount (visibleRange 10 10 ⟨-1000, -1000, 1⟩ 500 500) = 0 :=
  (bounds_containment 10 10 ⟨-1000, -1000, 1⟩ 500 500).2.2.2.2.1
    (by norm_num [pitch, cellSize, gap])

/-- **C5** counterexample.  The pinch handler does not anchor at the pinch
centroid: with touches at `(0,0)` and `(200,0)` (distance 200, centroid
`(100,0)`) and previous distance 100, the factor 2 passes the jitter
threshold, the zoom is set to 2, but the offset is left at `(0,0)` — so the
world column under the centroid moves from `100/7` to `50/7` (mobile pitch
7 at zoom 1 and 14 at zoom 2). -/
theorem pinch_zoom_anchoring_cex :
    pinchMove ⟨0, 0, 1⟩ 100 200 = ⟨0, 0, 2⟩ ∧
    mWorldCol (pinchMove ⟨0, 0, 1⟩ 100 200) 100 ≠ mWorldCol ⟨0, 0, 1⟩ 100 := by
  have hmove : pinchMove ⟨0, 0, 1⟩ 100 200 = ⟨0, 0, 2⟩ := by
    norm_num [pinchMove]
  refine ⟨hmove, ?_⟩
  rw [hmove]
  norm_num [mWorldCol, mPitch, mCellSize, mGap]

/-- **C5** (corrected).  In the pinching state with a nonzero previous
distance, on frames where `|factor − 1| > 0.01` the camera's zoom is set
to `clamp(zoom·factor, 0.1, 3)` while the offset is left unchanged — the
update is *not* `zoomAround` at the pinch centroid, so the world point
under the centroid generally moves (see the counterexample); on frames
within the threshold the camera is left unchanged. -/
theorem pinch_zoom_update (v : Viewport) (lastDistance distance : ℚ)
    (hld : lastDistance ≠ 0) :
    ((pinchMove v lastDistance distance).x = v.x ∧
     (pinchMove v lastDistance distance).y = v.y) ∧
    (1/100 < |distance / lastDistance - 1| →
      (pinchMove v lastDistance distance).zoom =
        max (1/10) (min 3 (v.zoom * (distance / lastDistance)))) ∧
    (¬ 1/100 < |distance / lastDistance - 1| →
      pinchMove v lastDistance distance = v) := by
  simp only [pinchMove]
  rw [if_neg hld]
  split_ifs with hjit
  · exact ⟨⟨rfl, rfl⟩, fun _ => rfl, fun hn => absurd hjit hn⟩
  · exact ⟨⟨rfl, rfl⟩, fun hj => absurd hj hjit, fun _ => rfl⟩

/-- Witness for C5 (amended): previous distance 100, current distance 200
at zoom 1 — factor 2 passes the threshold, zoom becomes
`clamp(1·2, 0.1, 3) = 2`, offset `(5,6)` is untouched. -/
theorem pinch_zoom_update_witness :
    ((pinchMove ⟨5, 6, 1⟩ 100 200).x = 5 ∧ (pinchMove ⟨5, 6, 1⟩ 100 200).y = 6) ∧
    (pinchMove ⟨5, 6, 1⟩ 100 200).zoom =
      max (1/10) (min 3 ((1 : ℚ) * (200 / 100))) :=
  ⟨(pinch_zoom_update ⟨5, 6, 1⟩ 100 200 (by norm_num)).1,
   (pinch_zoom_update ⟨5, 6, 1⟩ 100 200 (by norm_num)).2.1 (by norm_num)⟩

/-- **C6** counterexample.  There is no zero-previous-distance guard: with
recorded pinch distance `0` and current distance `100`, the JS factor is
`+Infinity`, which passes the jitter test, and
`Math.max(0.1, Math.min(3, zoom · Infinity))` sets the zoom to the upper
bound `3` — the frame is not a no-op.  (The `||` fallback in
`parseFloat(canvas.dataset.lastDistance || distance.toString())` does not
guard this: the stored string `"0"` is truthy.) -/
theorem pinch_zero_distance_cex :
    pinchMove ⟨0, 0, 1⟩ 0 100 ≠ ⟨0, 0, 1⟩ ∧
    (pinchMove ⟨0, 0, 1⟩ 0 100).zoom = 3 := by
  have hmove : pinchMove ⟨0, 0, 1⟩ 0 100 = ⟨0, 0, 3⟩ := by
    norm_num [pinchMove]
  rw [hmove]
  refine ⟨?_, rfl⟩
  intro hcon
  have hzz := congrArg Viewport.zoom hcon
  norm_num at hzz

/-- **C6** (corrected).  With a *recorded* previous distance of zero, the
frame is a no-op only when the current distance is also zero (the `NaN`
factor fails the jitter test); when the current distance is nonzero the
infinite factor passes the test and the zoom jumps to the upper bound `3`
(offsets unchanged) rather than being left alone.  The `||` fallback
guards only a *missing* recorded distance (the first pinch frame), which
is treated as the current distance (factor 1) and is a genuine no-op. -/
theorem pinch_zero_distance (v : Viewport) (distance : ℚ) (_hz : 0 < v.zoom) :
    pinchMove v 0 0 = v ∧
    (distance ≠ 0 →
      (pinchMove v 0 distance).zoom = 3 ∧
      (pinchMove v 0 distance).x = v.x ∧ (pinchMove v 0 distance).y = v.y) ∧
    handleTouchMovePinch v none distance = v := by
  refine ⟨by simp [pinchMove], fun hd => ?_, ?_⟩
  · unfold pinchMove
    simp only [if_pos rfl, hd, if_false]
    exact ⟨rfl, rfl, rfl⟩
  · unfold handleTouchMovePinch pinchMove
    simp only [Option.getD_none]
    by_cases hd : distance = 0
    · simp [hd]
    · rw [if_neg hd, div_self hd]
      norm_num

/-- Witness for C6 (amended) at zoom 1: a zero recorded distance with
current distance 100 jumps the zoom to 3; a first pinch frame (no recorded
distance) is a no-op. -/
theorem pinch_zero_distance_witness :
    (pinchMove ⟨1, 2, 1⟩ 0 100).zoom = 3 ∧
    handleTouchMovePinch ⟨1, 2, 1⟩ none 100 = ⟨1, 2, 1⟩ :=
  ⟨((pinch_zero_distance ⟨1, 2, 1⟩ 100 (by norm_num)).2.1 (by norm_num)).1,
   (pinch_zero_distance ⟨1, 2, 1⟩ 100 (by norm_num)).2.2⟩

/-- **C8** counterexample.  A select-mode click resolving to an in-bounds
cell with no store record does *not* flip its selection membership: with an
empty store on a 10×10 grid (camera at origin, zoom 1), a click at `(0,0)`
resolves to cell id 0 (within bounds), but `handleClick` hits the
`if (!block || block.status !== 'unsold') return` guard and fires no
callback — whereas the claim requires `onBlockSelect(0)` to fire as for
any unsold cell. -/
theorem missing_cell_cex :
    handleClick Mode.select false ⟨0, 0, 1⟩ [] ∅ 10 10 0 0 = ClickEvent.noEvent ∧
    ClickEvent.noEvent ≠ ClickEvent.selectEv 0 := by
  constructor
  · norm_num [handleClick, findBlock, cellSize, gap]
  · intro hcon
    cases hcon

/-- **C8** (corrected).  For an in-bounds cell id absent from the store:
the per-cell-markup path synthesizes `{status: unsold, price: defaultPrice}`
(`gridBlocks`), the rasterized draw loop paints it with the unsold color,
and no operation surfaces an error (all the embedded operations are
total) — but select-mode toggles on such a cell are silent no-ops, not
unsold-like flips: both `GameGrid.handleBlockClick` and the canvas
`handleClick` look the id up in the raw store and return without firing a
callback when it is absent. -/
theorem missing_cell_synthesis (blocks : List Block) (blockPrice : ℚ)
    (totalBlocks blockId : ℕ) (hid : blockId < totalBlocks)
    (habsent : findBlock blocks blockId = none) :
    (gridBlocks blocks totalBlocks blockPrice)[blockId]? =
      some (defaultBlock blockId blockPrice) ∧
    (defaultBlock blockId blockPrice).status = Status.unsold ∧
    (defaultBlock blockId blockPrice).purchasePrice = blockPrice ∧
    fillColorOf (findBlock blocks blockId) = colors.unsold ∧
    (∀ mode sel, handleBlockClick mode blocks sel blockId = ClickEvent.noEvent) ∧
    (∀ (isDragging : Bool) (v : Viewport) (sel : Finset ℕ) (rows cols : ℕ)
      (clickX clickY : ℚ),
      (⌊(clickY - v.y) / (cellSize v.zoom + gap v.zoom)⌋ * cols +
        ⌊(clickX - v.x) / (cellSize v.zoom + gap v.zoom)⌋).toNat = blockId →
      handleClick Mode.select isDragging v blocks sel rows cols clickX clickY =
        ClickEvent.noEvent) := by
  refine ⟨?_, rfl, rfl, ?_, ?_, ?_⟩
  · simp [gridBlocks, List.getElem?_map, List.getElem?_range, hid, habsent]
  · rw [habsent]
    rfl
  · intro mode sel
    unfold handleBlockClick
    by_cases hmode : mode ≠ Mode.select
    · rw [if_pos hmode]
    · rw [if_neg hmode, habsent]
  · intro isDragging v sel rows cols clickX clickY hres
    simp only [handleClick]
    split_ifs with h1 h2
    · rfl
    · rw [hres, habsent]
    · rw [hres, habsent]
    · rfl

/-- Witness for C8 (amended): on a 100-cell grid with an empty store,
cell 3 is synthesized unsold at the default price and a select-mode toggle
on it fires nothing. -/
theorem missing_cell_synthesis_witness :
    (gridBlocks [] 100 (1/4))[3]? = some (defaultBlock 3 (1/4)) ∧
    handleBlockClick Mode.select [] ∅ 3 = ClickEvent.noEvent :=
  ⟨(missing_cell_synthesis [] (1/4) 100 3 (by norm_num) rfl).1,
   (missing_cell_synthesis [] (1/4) 100 3 (by norm_num) rfl).2.2.2.2.1 Mode.select ∅⟩

/-- **C9** counterexample.  `fitToView` does not clamp the zoom: on the
desktop rasterized backend with a 800×600 canvas and a 1000×1000 grid,
`zoom = min(800/9000, 600/9000) · 0.9 = 3/50 = 0.06`, below the configured
minimum `0.1`. -/
theorem camera_zoom_bounds_cex :
    (fitToView ⟨0, 0, 1⟩ 800 600 1000 1000).zoom = 3/50 ∧
    ¬ (1/10 : ℚ) ≤ (fitToView ⟨0, 0, 1⟩ 800 600 1000 1000).zoom := by
  have hz : (fitToView ⟨0, 0, 1⟩ 800 600 1000 1000).zoom = 3/50 := by
    norm_num [fitToView]
  rw [hz]
  norm_num

/-- **C9** (corrected).  The zoom stays within the configured bounds
(`[0.1, 5]` desktop, `[0.1, 3]` touch) after wheel zoom, pinch zoom, the
zoom-in/zoom-out buttons of both backends, and reset — while the offsets
are unconstrained — but `fitToView` (both backends) sets the zoom to
`min(viewportW/gridW, viewportH/gridH) · fitMargin` without clamping, which
can leave the bounds (see the counterexample). -/
theorem camera_zoom_bounds :
    (∀ (v : Viewport) (deltaY mouseX mouseY : ℚ),
      1/10 ≤ (handleWheel v deltaY mouseX mouseY).zoom ∧
      (handleWheel v deltaY mouseX mouseY).zoom ≤ 5) ∧
    (∀ v : Viewport, 1/10 ≤ v.zoom →
      1/10 ≤ (zoomInButton v).zoom ∧ (zoomInButton v).zoom ≤ 5) ∧
    (∀ v : Viewport, v.zoom ≤ 5 →
      1/10 ≤ (zoomOutButton v).zoom ∧ (zoomOutButton v).zoom ≤ 5) ∧
    (1/10 ≤ resetView.zoom ∧ resetView.zoom ≤ 5) ∧
    (∀ (v : Viewport) (lastDistance distance : ℚ),
      1/10 ≤ v.zoom → v.zoom ≤ 3 →
      1/10 ≤ (pinchMove v lastDistance distance).zoom ∧
      (pinchMove v lastDistance distance).zoom ≤ 3) ∧
    (∀ v : Viewport, 1/10 ≤ v.zoom →
      1/10 ≤ (mZoomInButton v).zoom ∧ (mZoomInButton v).zoom ≤ 3) ∧
    (∀ v : Viewport, v.zoom ≤ 3 →
      1/10 ≤ (mZoomOutButton v).zoom ∧ (mZoomOutButton v).zoom ≤ 3) := by
  refine ⟨fun v deltaY mouseX mouseY => ⟨?_, ?_⟩, fun v hv => ⟨?_, ?_⟩,
    fun v hv => ⟨?_, ?_⟩, ⟨by norm_num [resetView], by norm_num [resetView]⟩,
    fun v lastDistance distance h1 h3 => ⟨?_, ?_⟩,
    fun v hv => ⟨?_, ?_⟩, fun v hv => ⟨?_, ?_⟩⟩
  · exact le_max_left _ _
  · exact max_le (by norm_num) (min_le_left _ _)
  · exact le_min (by norm_num) (by linarith)
  · exact min_le_left _ _
  · exact le_max_left _ _
  · refine max_le (by norm_num) ?_
    rw [div_le_iff₀ (by norm_num : (0:ℚ) < 3/2)]
    linarith
  · simp only [pinchMove]
    split_ifs
    · exact h1
    · norm_num
    · exact le_max_left _ _
    · exact h1
  · simp only [pinchMove]
    split_ifs
    · exact h3
    · norm_num
    · exact max_le (by norm_num) (min_le_left _ _)
    · exact h3
  · exact le_min (by norm_num) (by linarith)
  · exact le_trans (min_le_left _ _) (by norm_num)
  · exact le_max_left _ _
  · refine max_le (by norm_num) ?_
    rw [div_le_iff₀ (by norm_num : (0:ℚ) < 7/5)]
    linarith

/-- Witness for C9 (amended): a pinch frame doubling the distance at zoom 1
lands within the touch bounds, and the desktop zoom-in button at zoom 1/10
stays within the desktop bounds. -/
theorem camera_zoom_bounds_witness :
    (1/10 ≤ (pinchMove ⟨0, 0, 1⟩ 100 200).zoom ∧
      (pinchMove ⟨0, 0, 1⟩ 100 200).zoom ≤ 3) ∧
    (1/10 ≤ (zoomInButton ⟨0, 0, 1/10⟩).zoom ∧
      (zoomInButton ⟨0, 0, 1/10⟩).zoom ≤ 5) :=
  ⟨camera_zoom_bounds.2.2.2.2.1 ⟨0, 0, 1⟩ 100 200 (by norm_num) (by norm_num),
   camera_zoom_bounds.2.1 ⟨0, 0, 1/10⟩ (by norm_num)⟩

theorem foldl_push_eq_append {α β : Type} (f : α → β) :
    ∀ (l : List α) (acc : List β),
      l.foldl (fun results a => results ++ [f a]) acc = acc ++ l.map f := by
  intro l
  induction l with
  | nil => intro acc; simp
  | cons a t ih => intro acc; simp [ih]

/-- **C10** (confirmed).  `calculateEliminations(seed, roundNumber,
blockIds, eliminationRate)` produces exactly one entry per input block id,
in input order; each entry satisfies `eliminated = (vrfValue <
eliminationRate)`; and each entry's `vrfValue` equals
`generateBlockRandomness(seed, roundNumber, blockId)`, a pure function of
exactly those three inputs — so equal inputs give equal outputs. -/
theorem calculateEliminations_spec (seed : String) (roundNumber : ℕ)
    (blockIds : List ℕ) (eliminationRate : ℚ) :
    calculateEliminations seed roundNumber blockIds eliminationRate =
      blockIds.map (fun blockId =>
        { blockId := blockId
          eliminated :=
            decide (generateBlockRandomness seed roundNumber blockId < eliminationRate)
          vrfValue := generateBlockRandomness seed roundNumber blockId }) ∧
    (calculateEliminations seed roundNumber blockIds eliminationRate).map
      ElimResult.blockId = blockIds ∧
    ∀ e ∈ calculateEliminations seed roundNumber blockIds eliminationRate,
      e.vrfValue = generateBlockRandomness seed roundNumber e.blockId ∧
      (e.eliminated = true ↔ e.vrfValue < eliminationRate) := by
  have hmap : calculateEliminations seed roundNumber blockIds eliminationRate =
      blockIds.map (fun blockId =>
        { blockId := blockId
          eliminated :=
            decide (generateBlockRandomness seed roundNumber blockId < eliminationRate)
          vrfValue := generateBlockRandomness seed roundNumber blockId }) := by
    unfold calculateEliminations
    exact (foldl_push_eq_append _ blockIds []).trans (List.nil_append _)
  refine ⟨hmap, ?_, ?_⟩
  · rw [hmap]
    clear hmap
    induction blockIds with
    | nil => rfl
    | cons a t ih => simp only [List.map_cons]; rw [ih]
  · intro e he
    rw [hmap] at he
    obtain ⟨blockId, _, rfl⟩ := List.mem_map.mp he
    exact ⟨rfl, by simp⟩

/-- Witness for C10 at a concrete call: one entry for the single input id
7, in order, with the vrf value determined by `(seed, round, id)`. -/
theorem calculateEliminations_spec_witness :
    (calculateEliminations ("test") 1 [7] (1/2)).map ElimResult.blockId = [7] ∧
    (calculateEliminations ("test") 1 [7] (1/2)).map ElimResult.vrfValue =
      [generateBlockRandomness ("test") 1 7] := by
  have h := calculateEliminations_spec ("test") 1 [7] (1/2)
  refine ⟨h.2.1, ?_⟩
  rw [h.1]
  rfl

end BlockChance
